import Mathlib

/-!
Verification of the GreedyPirates repository against its natural-language
specification.  The Python sources under `src/` are shallowly embedded as
executable Lean definitions: Python `dict`s become association lists
(`List (String × _)`, insertion ordered, first-match lookup), Python integers
become `Int`, Python float division of integers is modelled as exact rational
division (`ℚ`), `int(...)` truncation toward zero is `pyTrunc`, and raising an
exception is modelled with `Except String`.  Methods that mutate their object
before possibly raising return `Except String _ × State`, so that mutations
performed before a raise survive, exactly as in Python.
-/

namespace GreedyPirates

/-- First-match lookup in an association list, as Python `d[k]` / `d.get(k)`. -/
def dictGet {β : Type} (k : String) : List (String × β) → Option β
  | [] => none
  | (k', v) :: rest => if k' = k then some v else dictGet k rest

/-- Python `d[k] = v`: replace the value in place if the key is present
(keeping its position), otherwise append the pair at the end. -/
def dictSet {β : Type} (k : String) (v : β) : List (String × β) → List (String × β)
  | [] => [(k, v)]
  | (k', v') :: rest => if k' = k then (k', v) :: rest else (k', v') :: dictSet k v rest

/-- Keys of an association list, in insertion order. -/
def dictKeys {β : Type} (d : List (String × β)) : List String :=
  d.map Prod.fst

/-- Sum of the integer values of an association list, as `sum(d.values())`. -/
def sumVals (d : List (String × Int)) : Int :=
  (d.map Prod.snd).sum

/-- Python `int(q)` on a rational: truncation toward zero. -/
def pyTrunc (q : ℚ) : Int :=
  if 0 ≤ q then ⌊q⌋ else ⌈q⌉

/-! ## `src/core/treasure.py` -/

/-- Result record of `TreasureChest.calculate_payouts` (dataclass `TreasureResult`). -/
structure TreasureResult where
  total_bid : Int
  payouts : List (String × Int)
  valid_players : List String
  exceeded_limit : Bool
  deriving DecidableEq, Repr

/-- `TreasureChest.calculate_payouts(bids)` with chest amount `total_amount`.
Faithful translation of `src/core/treasure.py` lines 15-59: if the summed bid
is at most the chest amount, everyone is paid their bid and the limit flag is
false; otherwise `fair_share = total_amount / num_players` (Python true
division, exact here), only players with `bid <= fair_share` are kept, and if
any are kept each receives `int(total_amount / len(valid_players))`.  With an
empty bid map the greedy branch would divide by zero (`ZeroDivisionError`),
modelled as `Except.error`. -/
def calculatePayouts (total_amount : Int) (bids : List (String × Int)) :
    Except String TreasureResult :=
  let total_bid := sumVals bids
  let num_players := bids.length
  if total_bid ≤ total_amount then
    Except.ok
      { total_bid := total_bid
        payouts := bids
        valid_players := dictKeys bids
        exceeded_limit := false }
  else
    if num_players = 0 then
      Except.error "ZeroDivisionError: division by zero"
    else
      let fair_share : ℚ := (total_amount : ℚ) / (num_players : ℚ)
      let valid_players :=
        (bids.filter (fun pb => ((pb.2 : ℚ) ≤ fair_share : Bool))).map Prod.fst
      let payouts :=
        if valid_players.isEmpty then []
        else
          let share : ℚ := (total_amount : ℚ) / (valid_players.length : ℚ)
          valid_players.map (fun p => (p, pyTrunc share))
      Except.ok
        { total_bid := total_bid
          payouts := payouts
          valid_players := valid_players
          exceeded_limit := true }

/-- `TreasureChest.validate_bid`. -/
def validateBid (total_amount : Int) (bid : Int) : Bool :=
  0 ≤ bid && bid ≤ total_amount

/-! ## `src/core/game_state.py` -/

/-- Dynamically typed Python values stored in the game-state dictionaries:
`GameState.bids` holds either encrypted-bid dictionaries (`Dict[str, str]`,
before decryption) or plain verified integers, and `GameState.decrypted_bids`
holds the decrypted copies.  Only the shapes that actually flow through the
embedded code paths are represented. -/
inductive PyVal where
  | none
  | int (i : Int)
  | str (s : String)
  | dict (d : List (String × String))
  deriving DecidableEq, Repr

/-- Python `int(x)`: identity on ints, numeral parsing on strings,
`TypeError` on dictionaries and `None`. -/
def pyToInt : PyVal → Except String Int
  | .int i => Except.ok i
  | .str s =>
    match s.toInt? with
    | some i => Except.ok i
    | Option.none => Except.error "ValueError: invalid literal for int"
  | .dict _ => Except.error "TypeError: int argument must not be a dict"
  | .none => Except.error "TypeError: int argument must not be None"

/-- Python `set(xs)` as the list of distinct elements (first occurrences). -/
def pySet : List PyVal → List PyVal
  | [] => []
  | v :: rest => if v ∈ rest then pySet rest else v :: pySet rest

/-- `sum(int(bid) for bid in bids.values())`, evaluated left to right, the
first conversion failure aborting the sum as in Python. -/
def sumPyBids : List (String × PyVal) → Except String Int
  | [] => Except.ok 0
  | (_, v) :: rest => do
    let i ← pyToInt v
    let s ← sumPyBids rest
    pure (i + s)

/-- The mutable fields of `GameState` (`src/core/game_state.py`) that the
verified code paths touch.  `received_shares`, `encrypted_bids` and the SMPC
bid manager are never read by the operations below and are omitted;
`treasure` is the `TreasureChest` and is represented by its amount (always the
class constant 100, like `treasure_amount`). -/
structure GameState where
  min_players : Nat
  max_players : Nat
  max_rounds : Nat
  players : List String
  scores : List (String × Int)
  bids : List (String × PyVal)
  current_round : Nat
  round_active : Bool
  treasure_amount : Int
  game_complete : Bool
  decrypted_bids : List (String × List (String × PyVal))
  deriving DecidableEq, Repr

/-- `GameState.TREASURE_AMOUNT`. -/
def TREASURE_AMOUNT : Int := 100

/-- `GameState.__init__(min_players, max_players, max_rounds)`. -/
def gsInit (min_players : Nat := 3) (max_players : Nat := 6) (max_rounds : Nat := 10) :
    GameState where
  min_players := min_players
  max_players := max_players
  max_rounds := max_rounds
  players := []
  scores := []
  bids := []
  current_round := 0
  round_active := false
  treasure_amount := TREASURE_AMOUNT
  game_complete := false
  decrypted_bids := []

/-- `GameState.start_round` (lines 49-66): raises when the roster is empty or
below the minimum, otherwise increments the round counter, activates the
round, clears the bid dictionaries and resets the treasure amount.  All
checks precede all mutations, so the state is unchanged on error. -/
def startRound (s : GameState) : Except String Unit × GameState :=
  if s.players = [] then
    (Except.error "ValueError: Cannot start round - no players", s)
  else if s.players.length < s.min_players then
    (Except.error "ValueError: Need at least min_players players to start", s)
  else
    (Except.ok (),
      { s with
        current_round := s.current_round + 1
        round_active := true
        bids := []
        decrypted_bids := []
        treasure_amount := TREASURE_AMOUNT })

/-- `GameState.add_player` (lines 32-38): appends the id to the roster, zeroes
its score, and auto-starts the first round once the minimum roster is reached
(the display name is accepted and ignored, as in the source). -/
def addPlayer (s : GameState) (player_id : String) (_player_name : String) :
    Except String Unit × GameState :=
  let s1 := { s with
    players := s.players ++ [player_id]
    scores := dictSet player_id 0 s.scores }
  if s.min_players ≤ s1.players.length ∧ s1.current_round = 0 then
    startRound s1
  else
    (Except.ok (), s1)

/-- `GameState.place_bid` (lines 74-86): rejects when the round is inactive,
the player is unknown, or the player already has a bid recorded this round;
otherwise stores the (opaque) bid data.  All checks precede the mutation. -/
def placeBid (s : GameState) (player_id : String) (bid_data : PyVal) :
    Except String Unit × GameState :=
  if s.round_active = false then
    (Except.error "ValueError: Cannot bid - round not active", s)
  else if player_id ∉ s.players then
    (Except.error "ValueError: Unknown player", s)
  else if (dictGet player_id s.bids).isSome then
    (Except.error "ValueError: Player already bid this round", s)
  else
    (Except.ok (), { s with bids := dictSet player_id bid_data s.bids })

/-- `GameState.all_bids_placed` (lines 88-90). -/
def allBidsPlaced (s : GameState) : Bool :=
  s.bids.length = s.players.length

/-- One entry of the dictionary returned by `calculate_round_results`:
`{'name': player_id, 'bid': ..., 'share': ...}`. -/
structure RoundEntry where
  name : String
  bid : PyVal
  share : Int
  deriving DecidableEq, Repr

/-- Loop body of the proportional branch of `calculate_round_results` (lines
119-126): for each stored bid compute `share = (int(bid) * treasure) //
total_bids` (Python floor division, `Int.fdiv`), record the result entry and
add the share to the player's score.  A missing score key raises `KeyError`
after the scores mutated so far, as in Python. -/
def crrLoop (treasure total_bids : Int) :
    List (String × PyVal) → List (String × RoundEntry) → List (String × Int) →
    Except String (List (String × RoundEntry)) × List (String × Int)
  | [], results, scores => (Except.ok results, scores)
  | (p, bid) :: rest, results, scores =>
    match pyToInt bid with
    | Except.error e => (Except.error e, scores)
    | Except.ok i =>
      let share := Int.fdiv (i * treasure) total_bids
      match dictGet p scores with
      | Option.none => (Except.error "KeyError", scores)
      | some sc =>
        crrLoop treasure total_bids rest
          (dictSet p { name := p, bid := bid, share := share } results)
          (dictSet p (sc + share) scores)

/-- `GameState.calculate_round_results` (lines 101-130): if the summed bids
are zero, every roster player is given `treasure_amount // len(players)`
(scores untouched); otherwise every bidder is given the proportional share
`(int(bid) * treasure_amount) // total_bids`, accumulated into the scores.
The round is deactivated on success; exceptions (conversion failure, empty
roster in the zero branch, missing score key) propagate, leaving whatever
mutations already happened. -/
def calculateRoundResults (s : GameState) :
    Except String (List (String × RoundEntry)) × GameState :=
  match sumPyBids s.bids with
  | Except.error e => (Except.error e, s)
  | Except.ok total_bids =>
    if total_bids = 0 then
      if s.players.length = 0 then
        (Except.error "ZeroDivisionError: integer division by zero", s)
      else
        let share := Int.fdiv s.treasure_amount (s.players.length : Int)
        let results := s.players.foldl
          (fun acc p =>
            dictSet p
              { name := p, bid := (dictGet p s.bids).getD (PyVal.int 0), share := share }
              acc)
          []
        (Except.ok results, { s with round_active := false })
    else
      match crrLoop s.treasure_amount total_bids s.bids [] s.scores with
      | (Except.error e, scores') => (Except.error e, { s with scores := scores' })
      | (Except.ok results, scores') =>
        (Except.ok results, { s with scores := scores', round_active := false })

/-- `GameState.is_game_over` (lines 132-134). -/
def isGameOver (s : GameState) : Bool :=
  s.max_rounds ≤ s.current_round

/-- `GameState.calculate_round_results_smpc` (lines 158-178): returns the
empty dictionary unless the round is active with all bids placed; in that
case the very first statement of the `try` block iterates
`self.players.items()`, but `players` is a Python *list*, so an
`AttributeError` is raised, which the `except ValueError` clause does not
catch.  No state is mutated on that path. -/
def calculateRoundResultsSmpc (s : GameState) :
    Except String (List (String × PyVal)) × GameState :=
  if s.round_active = false ∨ allBidsPlaced s = false then
    (Except.ok [], s)
  else
    (Except.error "AttributeError: list object has no attribute items", s)

/-- `GameState.end_round` (lines 180-199): returns the empty dictionary
unless the round is active with all bids placed; otherwise it delegates to
`calculate_round_results_smpc`, whose `AttributeError` propagates before any
mutation. -/
def endRound (s : GameState) : Except String (List (String × PyVal)) × GameState :=
  if s.round_active = false ∨ allBidsPlaced s = false then
    (Except.ok [], s)
  else
    calculateRoundResultsSmpc s

/-- `GameState.verify_bid_consistency` (lines 226-245): `None` when the
originator has no decrypted-copies entry; error when the entry is empty or
the set of decrypted values has more than one element; error when the single
value is not a non-negative integer; otherwise that value. -/
def verifyBidConsistency (s : GameState) (player_id : String) :
    Except String (Option Int) :=
  match dictGet player_id s.decrypted_bids with
  | Option.none => Except.ok Option.none
  | some copies =>
    let bid_values := pySet (copies.map Prod.snd)
    if bid_values = [] then
      Except.error "BidVerificationError: No decrypted bids found"
    else if 1 < bid_values.length then
      Except.error "BidVerificationError: inconsistent bids"
    else
      match bid_values with
      | [PyVal.int n] =>
        if n < 0 then
          Except.error "BidVerificationError: Invalid bid value"
        else
          Except.ok (some n)
      | _ => Except.error "BidVerificationError: Invalid bid value"

/-- `GameState.process_decrypted_bid` (lines 247-276): validity checks first
(no mutation on their failure), then the decrypted copy is stored; when the
originator's copy count reaches `len(players) - 1` the consistency check
runs — its failure propagates but the stored copy remains — and on success
the verified value is written into `bids`, silently replacing any previous
entry. -/
def processDecryptedBid (s : GameState) (from_player for_player : String)
    (bid_value : PyVal) : Except String Unit × GameState :=
  if s.round_active = false then
    (Except.error "ValueError: Round not active", s)
  else if from_player ∉ s.players ∨ for_player ∉ s.players then
    (Except.error "ValueError: Invalid player ID", s)
  else
    match bid_value with
    | PyVal.int n =>
      if n < 0 then
        (Except.error "ValueError: Invalid bid value", s)
      else
        let copies := (dictGet from_player s.decrypted_bids).getD []
        let copies' := dictSet for_player bid_value copies
        let s1 := { s with decrypted_bids := dictSet from_player copies' s.decrypted_bids }
        if copies'.length = s.players.length - 1 then
          match verifyBidConsistency s1 from_player with
          | Except.error e => (Except.error e, s1)
          | Except.ok Option.none => (Except.ok (), s1)
          | Except.ok (some v) =>
            (Except.ok (), { s1 with bids := dictSet from_player (PyVal.int v) s1.bids })
        else
          (Except.ok (), s1)
    | _ => (Except.error "ValueError: Invalid bid value", s)

/-! ## `src/network/messages.py` and `src/network/protocol.py`

`Protocol.serialize` builds the dictionary
`{'type': message.type.name, 'player_id': message.player_id, 'data': message.data}`
and sends it through `json.dumps` (plus a trailing newline);
`Protocol.deserialize` strips the line and runs `json.loads` before
inspecting the parsed value.  `json.dumps` followed by `json.loads` is the
identity on string-keyed JSON values, so the embedding works directly on a
JSON value type `JValue` and models `serialize` as producing the parsed
record and `deserialize` as consuming one; a `json.loads` failure on
non-JSON input is one more `ValueError` path not represented here. -/

/-- JSON values (string-keyed objects, as produced by `json.loads`). -/
inductive JValue where
  | null
  | str (s : String)
  | num (n : Int)
  | arr (xs : List JValue)
  | obj (fields : List (String × JValue))

/-- The `MessageType` enum of `src/network/messages.py` — seven members, the
six game kinds plus `SESSION_KEY`. -/
inductive MessageType where
  | JOIN | BID | START_ROUND | END_ROUND | GAME_OVER | ERROR | SESSION_KEY
  deriving DecidableEq, Repr

/-- `MessageType.name`. -/
def typeName : MessageType → String
  | .JOIN => "JOIN"
  | .BID => "BID"
  | .START_ROUND => "START_ROUND"
  | .END_ROUND => "END_ROUND"
  | .GAME_OVER => "GAME_OVER"
  | .ERROR => "ERROR"
  | .SESSION_KEY => "SESSION_KEY"

/-- `MessageType[name]` lookup; `Option.none` is Python's `KeyError`. -/
def typeFromName (s : String) : Option MessageType :=
  if s = "JOIN" then some .JOIN
  else if s = "BID" then some .BID
  else if s = "START_ROUND" then some .START_ROUND
  else if s = "END_ROUND" then some .END_ROUND
  else if s = "GAME_OVER" then some .GAME_OVER
  else if s = "ERROR" then some .ERROR
  else if s = "SESSION_KEY" then some .SESSION_KEY
  else Option.none

/-- The `Message` dataclass: `type`, `player_id`, `data`, `round_num`.
Python performs no runtime type checking, so `player_id` and `round_num`
hold arbitrary JSON values (`JValue.null` standing for `None`). -/
structure Message where
  type : MessageType
  player_id : JValue
  data : List (String × JValue)
  round_num : JValue

/-- `JoinMessage(player_id, player_name, public_key)`. -/
def joinMessage (player_id player_name public_key : JValue) : Message :=
  ⟨.JOIN, player_id, [("player_name", player_name), ("public_key", public_key)], .null⟩

/-- `BidMessage(encrypted_bids)`; `player_id` is `None`. -/
def bidMessage (encrypted_bids : JValue) : Message :=
  ⟨.BID, .null, [("encrypted_bids", encrypted_bids)], .null⟩

/-- `StartRoundMessage(round_num)`; `data` is empty. -/
def startRoundMessage (round_num : JValue) : Message :=
  ⟨.START_ROUND, .str "server", [], round_num⟩

/-- `EndRoundMessage(round_num, results)`. -/
def endRoundMessage (round_num results : JValue) : Message :=
  ⟨.END_ROUND, .str "server", [("results", results)], round_num⟩

/-- `GameOverMessage(final_scores)` — note the single payload argument. -/
def gameOverMessage (final_scores : JValue) : Message :=
  ⟨.GAME_OVER, .str "server", [("final_scores", final_scores)], .null⟩

/-- `ErrorMessage(error_msg)`. -/
def errorMessage (error_msg : JValue) : Message :=
  ⟨.ERROR, .str "server", [("error", error_msg)], .null⟩

/-- `SessionKeyMessage(target_id, encrypted_key)`. -/
def sessionKeyMessage (target_id encrypted_key : JValue) : Message :=
  ⟨.SESSION_KEY, .null, [("target_id", target_id), ("encrypted_key", encrypted_key)], .null⟩

/-- `Protocol.serialize` (protocol.py lines 6-15): only `type`, `player_id`
and `data` are written; `round_num` is not part of the wire record. -/
def serialize (m : Message) : JValue :=
  .obj [("type", .str (typeName m.type)), ("player_id", m.player_id), ("data", .obj m.data)]

/-- Python `parsed['type']`: `KeyError` on a missing key, `TypeError` when
the subscripted value is not a dictionary (string keys cannot index lists,
strings or numbers). -/
def pyIndex (j : JValue) (k : String) : Except String JValue :=
  match j with
  | .obj fields =>
    match dictGet k fields with
    | some v => Except.ok v
    | Option.none => Except.error "KeyError"
  | _ => Except.error "TypeError: value is not subscriptable by a string"

/-- Python `x.get(k, default)`: defined for dictionaries only,
`AttributeError` otherwise. -/
def pyGet (j : JValue) (k : String) (default : JValue) : Except String JValue :=
  match j with
  | .obj fields => Except.ok ((dictGet k fields).getD default)
  | _ => Except.error "AttributeError: object has no attribute get"

/-- `Protocol.deserialize` (protocol.py lines 17-57) on the parsed JSON
value.  Every exception inside the `try` block surfaces as the wrapped
`ValueError`, here `Except.error`.  Each branch mirrors the source: absent
fields are replaced by the literal defaults of the `data.get(...)` calls and
no type validation is performed; the `GAME_OVER` branch calls
`GameOverMessage(data.get('winners', []), data.get('scores', {}))`, two
positional arguments against a one-argument `__init__`, hence an unavoidable
`TypeError`. -/
def deserialize (parsed : JValue) : Except String Message := do
  let tv ← pyIndex parsed "type"
  let mt ← match tv with
    | .str s =>
      match typeFromName s with
      | some t => Except.ok t
      | Option.none => Except.error "KeyError: not a MessageType name"
    | _ => Except.error "KeyError: MessageType indices are names"
  let player_id ← pyGet parsed "player_id" .null
  let data ← pyGet parsed "data" (.obj [])
  match mt with
  | .JOIN => do
    let player_name ← pyGet data "player_name" (.str "")
    let public_key ← pyGet data "public_key" (.str "")
    pure (joinMessage player_id player_name public_key)
  | .BID => do
    let encrypted_bids ← pyGet data "encrypted_bids" (.obj [])
    pure (bidMessage encrypted_bids)
  | .START_ROUND => do
    let round ← pyGet data "round" (.num 1)
    pure (startRoundMessage round)
  | .END_ROUND => do
    let round ← pyGet data "round" (.num 1)
    let results ← pyGet data "results" (.obj [])
    pure (endRoundMessage round results)
  | .GAME_OVER => do
    let _winners ← pyGet data "winners" (.arr [])
    let _scores ← pyGet data "scores" (.obj [])
    Except.error "TypeError: GameOverMessage.__init__ takes 2 positional arguments but 3 were given"
  | .ERROR => do
    let err ← pyGet data "error" (.str "")
    pure (errorMessage err)
  | .SESSION_KEY => do
    let target_id ← pyGet data "target_id" (.str "")
    let encrypted_key ← pyGet data "encrypted_key" (.str "")
    pure (sessionKeyMessage target_id encrypted_key)

/-! ## `src/crypto/keys.py`, symmetric session-key encryption

`encrypt_with_session_key` is AES-256-CBC with a random 16-byte IV prepended
and manual PKCS7 padding; `decrypt_with_session_key` splits off the IV, runs
CBC decryption and strips `padded_data[-1]` bytes *without validating the
padding bytes and without any authentication tag*.  The AES block
permutations are abstracted as parameters `blockEnc`/`blockDec`
(`List Nat → List Nat` on 16-byte blocks); every property proved below holds
for every such permutation, hence for AES-256 under any 256-bit session key.
Bytes are `Nat`, XOR is `Nat.xor`. -/

/-- Split into 16-byte chunks (fuel-based so that it reduces by `rfl`). -/
def chunksAux : Nat → List Nat → List (List Nat)
  | 0, _ => []
  | _ + 1, [] => []
  | n + 1, l@(_ :: _) => l.take 16 :: chunksAux n (l.drop 16)

/-- All 16-byte blocks of a byte string. -/
def chunks16 (l : List Nat) : List (List Nat) :=
  chunksAux l.length l

/-- PKCS7 padding as written in `encrypt_with_session_key`:
`padding_length = 16 - (len(data) % 16)` bytes, each equal to the length. -/
def pkcs7Pad (data : List Nat) : List Nat :=
  let padding_length := 16 - data.length % 16
  data ++ List.replicate padding_length padding_length

/-- CBC encryption of a block sequence. -/
def cbcEncryptBlocks (blockEnc : List Nat → List Nat) (prev : List Nat) :
    List (List Nat) → List Nat
  | [] => []
  | b :: rest =>
    let c := blockEnc (List.zipWith Nat.xor b prev)
    c ++ cbcEncryptBlocks blockEnc c rest

/-- CBC decryption of a block sequence. -/
def cbcDecryptBlocks (blockDec : List Nat → List Nat) (prev : List Nat) :
    List (List Nat) → List Nat
  | [] => []
  | b :: rest => List.zipWith Nat.xor (blockDec b) prev ++ cbcDecryptBlocks blockDec b rest

/-- `KeyManager.encrypt_with_session_key` (keys.py lines 142-158) with the
random IV made explicit: pad, CBC-encrypt, prepend the IV. -/
def encryptWithSessionKey (blockEnc : List Nat → List Nat) (iv data : List Nat) :
    List Nat :=
  iv ++ cbcEncryptBlocks blockEnc iv (chunks16 (pkcs7Pad data))

/-- Python `padded_data[:-padding_length]`: everything for `n = 0` is the
empty slice `[:-0] = [:0]`, otherwise the last `n` bytes are dropped. -/
def pyDropLastSlice (l : List Nat) (n : Nat) : List Nat :=
  if n = 0 then [] else l.take (l.length - n)

/-- `KeyManager.decrypt_with_session_key` (keys.py lines 160-175): split off
the 16-byte IV (the `Cipher` constructor rejects a shorter one), CBC-decrypt
(`finalize` rejects a partial final block), then take the last decrypted byte
as the padding length and strip that many bytes.  No padding byte is checked
and no authentication exists. -/
def decryptWithSessionKey (blockDec : List Nat → List Nat) (encrypted_data : List Nat) :
    Except String (List Nat) :=
  let iv := encrypted_data.take 16
  let ciphertext := encrypted_data.drop 16
  if iv.length ≠ 16 then
    Except.error "ValueError: Invalid IV size for CBC"
  else if ciphertext.length % 16 ≠ 0 then
    Except.error "ValueError: The length of the provided data is not a multiple of the block length"
  else
    let padded_data := cbcDecryptBlocks blockDec iv (chunks16 ciphertext)
    match padded_data.getLast? with
    | Option.none => Except.error "IndexError: index out of range"
    | some padding_length => Except.ok (pyDropLastSlice padded_data padding_length)

/-! ## Small auxiliary definitions used by the statements -/

/-- Whether an `Except` value is a success. -/
def exOk {ε α : Type} : Except ε α → Bool
  | Except.ok _ => true
  | Except.error _ => false

/-- Whether a JSON value is an object (a mapping). -/
def jIsObj : JValue → Bool
  | .obj _ => true
  | _ => false

/-- Whether a JSON value is a string. -/
def jIsStr : JValue → Bool
  | .str _ => true
  | _ => false

/-- The inputs on which `Protocol.deserialize` does reject: a non-object
top level, a missing or non-string `type` field, a `type` string that is not
a `MessageType` member name, or a present `data` field that is not a
mapping. -/
def RejectedInput (j : JValue) : Prop :=
  jIsObj j = false ∨
  (∃ fields, j = JValue.obj fields ∧ dictGet "type" fields = Option.none) ∨
  (∃ fields v, j = JValue.obj fields ∧ dictGet "type" fields = some v ∧ jIsStr v = false) ∨
  (∃ fields s, j = JValue.obj fields ∧ dictGet "type" fields = some (JValue.str s) ∧
    typeFromName s = Option.none) ∨
  (∃ fields v, j = JValue.obj fields ∧ (∃ s, dictGet "type" fields = some (JValue.str s) ∧
    (typeFromName s).isSome) ∧ dictGet "data" fields = some v ∧ jIsObj v = false)

/-- Concrete game state for the claim C1 counterexample: three players who
bid 30, 40 and 20 during an active round with treasure 100. -/
def c1State : GameState :=
  { gsInit 3 6 10 with
    players := ["p1", "p2", "p3"]
    scores := [("p1", 0), ("p2", 0), ("p3", 0)]
    bids := [("p1", PyVal.int 30), ("p2", PyVal.int 40), ("p3", PyVal.int 20)]
    current_round := 1
    round_active := true }

/-- Concrete game state for the claim C2 witness: three players, all-zero
bids, active round, treasure 100. -/
def c2State : GameState :=
  { gsInit 3 6 10 with
    players := ["p1", "p2", "p3"]
    scores := [("p1", 0), ("p2", 0), ("p3", 0)]
    bids := [("p1", PyVal.int 0), ("p2", PyVal.int 0), ("p3", PyVal.int 0)]
    current_round := 1
    round_active := true }

/-- Concrete game state for the claim C9 counterexample: a two-player game
(minimum two) in which the first round has started. -/
def c9Roster : GameState :=
  (addPlayer (addPlayer (gsInit 2 6 10) "A" "Alice").2 "B" "Bob").2

/-- The C9 state after the first decrypted copy of A's bid (value 5) has been
processed: the copy count reaches `len(players) - 1 = 1`, so the bid is
verified and recorded. -/
def c9Verified : GameState :=
  (processDecryptedBid c9Roster "A" "B" (PyVal.int 5)).2

/-- Concrete game-over state for the claim C7 witness: a three-player game
with `max_rounds = 1` whose single round has been closed. -/
def c7State : GameState :=
  { gsInit 3 6 1 with
    players := ["p1", "p2", "p3"]
    scores := [("p1", 0), ("p2", 0), ("p3", 0)]
    current_round := 1
    round_active := false }

/-- Concrete state for the claim C8 witness: an active three-player round in
which only one bid has been placed. -/
def c8State : GameState :=
  { gsInit 3 6 10 with
    players := ["p1", "p2", "p3"]
    scores := [("p1", 0), ("p2", 0), ("p3", 0)]
    bids := [("p1", PyVal.dict [("p2", "aaa"), ("p3", "bbb")])]
    current_round := 1
    round_active := true }

/-- Concrete state for the claim C10 witness: an active three-player round in
which one decrypted copy of A's bid (value 7) is already stored. -/
def c10State : GameState :=
  { gsInit 3 6 10 with
    players := ["A", "B", "C"]
    scores := [("A", 0), ("B", 0), ("C", 0)]
    current_round := 1
    round_active := true
    decrypted_bids := [("A", [("B", PyVal.int 7)])] }

/-- Concrete state for the claim C9 witness: an active round where player
"A" already has a recorded bid. -/
def c9BidState : GameState :=
  { gsInit 3 6 10 with
    players := ["A", "B", "C"]
    scores := [("A", 0), ("B", 0), ("C", 0)]
    bids := [("A", PyVal.int 5)]
    current_round := 1
    round_active := true }

/-! ## Helper lemmas on the dictionary model -/

theorem error_bind {ε α β : Type} (e : ε) (f : α → Except ε β) :
    (Except.error e : Except ε α) >>= f = Except.error e := rfl

theorem ok_bind {ε α β : Type} (a : α) (f : α → Except ε β) :
    (Except.ok a : Except ε α) >>= f = f a := rfl

theorem map_error {ε α β : Type} (e : ε) (f : α → β) :
    f <$> (Except.error e : Except ε α) = Except.error e := rfl

theorem exOk_error {ε α : Type} (e : ε) : exOk (Except.error e : Except ε α) = false := rfl

theorem pyGet_obj (fields : List (String × JValue)) (k : String) (d : JValue) :
    pyGet (JValue.obj fields) k d = Except.ok ((dictGet k fields).getD d) := rfl

theorem dictGet_dictSet_self {β : Type} (k : String) (v : β) :
    ∀ (d : List (String × β)), dictGet k (dictSet k v d) = some v := by
  intro d
  induction d with
  | nil => simp [dictSet, dictGet]
  | cons kv rest ih =>
    obtain ⟨q, w⟩ := kv
    simp only [dictSet]
    by_cases h : q = k
    · simp [dictGet, h]
    · simp [dictGet, h, ih]

theorem mem_pySet {v : PyVal} : ∀ {l : List PyVal}, v ∈ l → v ∈ pySet l := by
  intro l hv
  induction l with
  | nil => cases hv
  | cons w rest ih =>
    simp only [pySet]
    by_cases hw : w ∈ rest
    · rw [if_pos hw]
      cases List.mem_cons.mp hv with
      | inl h => exact ih (h ▸ hw)
      | inr h => exact ih h
    · rw [if_neg hw]
      cases List.mem_cons.mp hv with
      | inl h => exact h ▸ List.mem_cons_self _ _
      | inr h => exact List.mem_cons_of_mem _ (ih h)

theorem one_lt_length_of_two_mem {α : Type} {a b : α} :
    ∀ {l : List α}, a ∈ l → b ∈ l → a ≠ b → 1 < l.length := by
  intro l ha hb hne
  match l with
  | [] => cases ha
  | [x] =>
    have h1 : a = x := List.mem_singleton.mp ha
    have h2 : b = x := List.mem_singleton.mp hb
    exact absurd (h1.trans h2.symm) hne
  | x :: y :: rest => simp [List.length_cons]

theorem dictGet_map_const_of_mem {β : Type} (c : β) {p : String} :
    ∀ {l : List String}, p ∈ l → dictGet p (l.map (fun q => (q, c))) = some c := by
  intro l hp
  induction l with
  | nil => cases hp
  | cons q rest ih =>
    simp only [List.map_cons, dictGet]
    by_cases hq : q = p
    · simp [hq]
    · have : p ∈ rest := by
        cases List.mem_cons.mp hp with
        | inl h => exact absurd h.symm hq
        | inr h => exact h
      simp [hq, ih this]

theorem dictGet_map_const_of_not_mem {β : Type} (c : β) {p : String} :
    ∀ {l : List String}, p ∉ l → dictGet p (l.map (fun q => (q, c))) = Option.none := by
  intro l hp
  induction l with
  | nil => rfl
  | cons q rest ih =>
    simp only [List.map_cons, dictGet]
    have hq : q ≠ p := fun h => hp (h ▸ List.mem_cons_self q rest)
    have hrest : p ∉ rest := fun h => hp (List.mem_cons_of_mem q h)
    simp [hq, ih hrest]

theorem dictGet_map_fn_of_mem {β : Type} (g : String → β) {p : String} :
    ∀ {l : List String}, p ∈ l → dictGet p (l.map (fun q => (q, g q))) = some (g p) := by
  intro l hp
  induction l with
  | nil => cases hp
  | cons q rest ih =>
    simp only [List.map_cons, dictGet]
    by_cases hq : q = p
    · simp [hq]
    · have : p ∈ rest := by
        cases List.mem_cons.mp hp with
        | inl h => exact absurd h.symm hq
        | inr h => exact h
      simp [hq, ih this]

theorem value_unique_of_nodup_keys {β : Type} :
    ∀ {l : List (String × β)}, (l.map Prod.fst).Nodup →
      ∀ {p : String} {b b' : β}, (p, b) ∈ l → (p, b') ∈ l → b = b' := by
  intro l hnd
  induction l with
  | nil => intro p b b' h; cases h
  | cons pb rest ih =>
    intro p b b' hb hb'
    simp only [List.map_cons, List.nodup_cons] at hnd
    cases List.mem_cons.mp hb with
    | inl h =>
      cases List.mem_cons.mp hb' with
      | inl h' => exact congrArg Prod.snd (h.trans h'.symm)
      | inr h' =>
        exfalso
        have hp : p = pb.1 := congrArg Prod.fst h
        exact hnd.1 (hp ▸ List.mem_map.mpr ⟨(p, b'), h', rfl⟩)
    | inr h =>
      cases List.mem_cons.mp hb' with
      | inl h' =>
        exfalso
        have hp : p = pb.1 := congrArg Prod.fst h'
        exact hnd.1 (hp ▸ List.mem_map.mpr ⟨(p, b), h, rfl⟩)
      | inr h' => exact ih hnd.2 h h'

theorem dictSet_append_of_get_none {β : Type} (k : String) (v : β) :
    ∀ {d : List (String × β)}, dictGet k d = Option.none → dictSet k v d = d ++ [(k, v)] := by
  intro d h
  induction d with
  | nil => rfl
  | cons kv rest ih =>
    simp only [dictSet]
    simp only [dictGet] at h
    by_cases hk : kv.1 = k
    · rw [if_pos hk] at h; cases h
    · rw [if_neg hk] at h ⊢
      rw [ih h]
      simp

theorem dictGet_append_single_ne {β : Type} (k q : String) (v : β) (hne : q ≠ k)
    (d : List (String × β)) : dictGet k (d ++ [(q, v)]) = dictGet k d := by
  induction d with
  | nil => simp [dictGet, hne]
  | cons kv rest ih =>
    simp only [List.cons_append, dictGet]
    by_cases hk : kv.1 = k
    · simp [hk]
    · simp [hk, ih]

theorem foldl_dictSet_map {β : Type} (g : String → β) :
    ∀ (l : List String) (acc : List (String × β)), l.Nodup →
      (∀ p ∈ l, dictGet p acc = Option.none) →
      l.foldl (fun a p => dictSet p (g p) a) acc = acc ++ l.map (fun p => (p, g p)) := by
  intro l
  induction l with
  | nil => intro acc _ _; simp
  | cons q rest ih =>
    intro acc hnd hnone
    simp only [List.foldl_cons]
    have hq : dictGet q acc = Option.none := hnone q (List.mem_cons_self q rest)
    rw [dictSet_append_of_get_none q (g q) hq]
    have hnd' := (List.nodup_cons.mp hnd)
    rw [ih (acc ++ [(q, g q)]) hnd'.2 ?_]
    · simp
    · intro p hp
      have hpq : p ≠ q := fun h => hnd'.1 (h ▸ hp)
      rw [dictGet_append_single_ne p q (g q) hpq.symm]
      exact hnone p (List.mem_cons_of_mem q hp)

/-! ## Claim C1 -/

/-- Claim C1, counterexample.  The claim states that the payout computation
performed when a round closes pays every participant exactly their bid
whenever `0 < sum(bids) ≤ treasure_amount`.  `GameState.calculate_round_results`
closes the round (it clears `round_active`) and is the round-ending payout
computation used by `GameServer.end_round`; on bids 30/40/20 with treasure
100 (sum 90 ≤ 100) it pays p1 the proportional share `30 * 100 // 90 = 33`,
not the bid 30, and returns no `exceeded_limit` flag at all. -/
theorem claim_C1_counterexample :
    (calculateRoundResults c1State).1 =
      Except.ok [("p1", { name := "p1", bid := PyVal.int 30, share := 33 }),
        ("p2", { name := "p2", bid := PyVal.int 40, share := 44 }),
        ("p3", { name := "p3", bid := PyVal.int 20, share := 22 })] ∧
    (33 : Int) ≠ 30 :=
  ⟨rfl, by decide⟩

/-- Claim C1, amended: in `TreasureChest.calculate_payouts` — the payout rule
with the `exceeded_limit` flag, used by `GameState.end_round` — every bid map
whose values lie in `[0, treasure_amount]` with `0 < sum(bids) ≤
treasure_amount` yields exactly the bids as payouts and a false
`exceeded_limit` flag.  (`GameState.calculate_round_results` instead pays
proportional shares, see the counterexample.) -/
theorem claim_C1 (total : Int) (bids : List (String × Int))
    (hrange : ∀ pb ∈ bids, 0 ≤ pb.2 ∧ pb.2 ≤ total)
    (hpos : 0 < sumVals bids) (hle : sumVals bids ≤ total) :
    calculatePayouts total bids =
      Except.ok { total_bid := sumVals bids, payouts := bids,
                  valid_players := dictKeys bids, exceeded_limit := false } := by
  simp [calculatePayouts, hle]

/-- Claim C1 witness: the amended theorem applied to spec Scenario A,
bids 30/40/20 against treasure 100. -/
theorem claim_C1_witness :
    calculatePayouts 100 [("p1", 30), ("p2", 40), ("p3", 20)] =
      Except.ok { total_bid := 90, payouts := [("p1", 30), ("p2", 40), ("p3", 20)],
                  valid_players := ["p1", "p2", "p3"], exceeded_limit := false } := by
  have h := claim_C1 100 [("p1", 30), ("p2", 40), ("p3", 20)]
    (by decide) (by decide) (by decide)
  simpa [sumVals, dictKeys] using h

/-! ## Claim C2 -/

/-- Claim C2, counterexample.  The claim states that on a non-empty bid map
summing to zero the round-closing payout computation pays everyone
`treasure_amount // participant_count`.  `TreasureChest.calculate_payouts`
(cited by the claim) takes its `total_bid <= total_amount` branch on an
all-zero bid map and pays every participant their bid, i.e. 0, not
`100 // 3 = 33`. -/
theorem claim_C2_counterexample :
    calculatePayouts 100 [("p1", 0), ("p2", 0), ("p3", 0)] =
      Except.ok { total_bid := 0, payouts := [("p1", 0), ("p2", 0), ("p3", 0)],
                  valid_players := ["p1", "p2", "p3"], exceeded_limit := false } ∧
    (0 : Int) ≠ Int.fdiv 100 3 :=
  ⟨rfl, by decide⟩

/-- Claim C2, amended: the even split of a zero-sum round happens only in
`GameState.calculate_round_results`: on a zero bid sum with a non-empty
roster it gives every roster player exactly
`treasure_amount // len(players)`, leaving the remainder
`treasure_amount % len(players)` undistributed (the distributed total is
`treasure_amount - treasure_amount % len(players)`), while
`TreasureChest.calculate_payouts` pays each participant their zero bid. -/
theorem claim_C2 (s : GameState) (hp : s.players ≠ []) (hnd : s.players.Nodup)
    (hsum : sumPyBids s.bids = Except.ok 0) :
    ∃ results,
      calculateRoundResults s = (Except.ok results, { s with round_active := false }) ∧
      (∀ p ∈ s.players, dictGet p results =
        some { name := p, bid := (dictGet p s.bids).getD (PyVal.int 0),
               share := Int.fdiv s.treasure_amount (s.players.length : Int) }) ∧
      (results.map (fun pe => pe.2.share)).sum =
        s.treasure_amount - Int.fmod s.treasure_amount (s.players.length : Int) := by
  have hlen : s.players.length ≠ 0 := fun h => hp (List.length_eq_zero.mp h)
  have hfold := foldl_dictSet_map
    (fun p => (⟨p, (dictGet p s.bids).getD (PyVal.int 0),
      Int.fdiv s.treasure_amount (s.players.length : Int)⟩ : RoundEntry))
    s.players [] hnd (fun p _ => rfl)
  refine ⟨s.players.map (fun p =>
    (p, (⟨p, (dictGet p s.bids).getD (PyVal.int 0),
      Int.fdiv s.treasure_amount (s.players.length : Int)⟩ : RoundEntry))),
    ?_, ?_, ?_⟩
  · simp only [calculateRoundResults, hsum]
    simp only [List.nil_append] at hfold
    simp [hlen, hfold]
  · intro p hpmem
    simpa using dictGet_map_fn_of_mem
      (fun p => (⟨p, (dictGet p s.bids).getD (PyVal.int 0),
        Int.fdiv s.treasure_amount (s.players.length : Int)⟩ : RoundEntry)) hpmem
  · have hmap : (s.players.map (fun p =>
        (p, (⟨p, (dictGet p s.bids).getD (PyVal.int 0),
          Int.fdiv s.treasure_amount (s.players.length : Int)⟩ : RoundEntry)))).map
          (fun pe => pe.2.share) =
        s.players.map (fun _ => Int.fdiv s.treasure_amount (s.players.length : Int)) := by
      simp [List.map_map, Function.comp_def]
    rw [hmap, List.map_const', List.sum_replicate, nsmul_eq_mul]
    have := Int.fdiv_add_fmod s.treasure_amount (s.players.length : Int)
    omega

/-- Claim C2 witness: the amended theorem applied to three players with
all-zero bids and treasure 100; each receives `100 // 3 = 33` and
`100 % 3 = 1` coin is undistributed. -/
theorem claim_C2_witness :
    ∃ results,
      (calculateRoundResults c2State).1 = Except.ok results ∧
      dictGet "p1" results = some { name := "p1", bid := PyVal.int 0, share := 33 } ∧
      (results.map (fun pe => pe.2.share)).sum = 99 := by
  obtain ⟨results, h1, h2, h3⟩ := claim_C2 c2State (by decide) (by decide) rfl
  exact ⟨results, by rw [h1], h2 "p1" (by decide), h3⟩

/-! ## Claim C7 -/

/-- Claim C7, code bug.  The claim (and spec Scenario D) say that once
`max_rounds` rounds have closed, `is_game_over()` is true and a further
transition to the Active state is refused.  `GameState.is_game_over` is
indeed true, but `GameState.start_round` checks only the roster size, so
from any closed state with `current_round = max_rounds` it succeeds and
activates round `max_rounds + 1`. -/
theorem claim_C7_bug (s : GameState) (hne : s.players ≠ [])
    (hmin : s.min_players ≤ s.players.length)
    (hdone : s.current_round = s.max_rounds) :
    isGameOver s = true ∧
    (startRound s).1 = Except.ok () ∧
    (startRound s).2.round_active = true ∧
    (startRound s).2.current_round = s.max_rounds + 1 := by
  have hmin' : ¬ s.players.length < s.min_players := Nat.not_lt.mpr hmin
  refine ⟨?_, ?_, ?_, ?_⟩ <;> simp [isGameOver, startRound, hne, hmin', hdone]

/-- Claim C7 witness: a three-player game with `max_rounds = 1` whose single
round has closed; `is_game_over()` is true yet `start_round` activates a
second round. -/
theorem claim_C7_bug_witness :
    isGameOver c7State = true ∧
    (startRound c7State).1 = Except.ok () ∧
    (startRound c7State).2.round_active = true ∧
    (startRound c7State).2.current_round = 2 := by
  have h := claim_C7_bug c7State (by decide) (by decide) (by decide)
  simpa [c7State, gsInit] using h

/-! ## Claim C8 -/

/-- Claim C8: a round is never closed by `GameState.end_round` while fewer
verified bids than roster members have been collected: in that situation
`end_round` returns the empty result dictionary and leaves the state — in
particular `round_active` — completely unchanged. -/
theorem claim_C8 (s : GameState) (hfew : s.bids.length < s.players.length) :
    endRound s = (Except.ok [], s) := by
  have hne : s.bids.length ≠ s.players.length := Nat.ne_of_lt hfew
  simp [endRound, allBidsPlaced, hne]

/-- Claim C8 witness: an active three-player round with a single placed bid;
`end_round` returns the empty dictionary and the round stays open. -/
theorem claim_C8_witness :
    endRound c8State = (Except.ok [], c8State) ∧ c8State.round_active = true :=
  ⟨claim_C8 c8State (by decide), rfl⟩

/-! ## Claim C5 -/

/-- Claim C5, code bug.  The claim states that deserializing the result of
serializing any of the six message kinds reproduces type, player id, data and
round number.  `Protocol.serialize` omits `round_num` from the wire record
while `Protocol.deserialize` reads the round from `data['round']` with
default 1, so a `StartRoundMessage` with round 2 comes back with round 1;
and the `GAME_OVER` branch of `deserialize` calls `GameOverMessage` with two
positional arguments against its one-argument `__init__`, so a serialized
`GameOverMessage` never deserializes at all. -/
theorem claim_C5_bug :
    deserialize (serialize (startRoundMessage (JValue.num 2))) =
      Except.ok (startRoundMessage (JValue.num 1)) ∧
    JValue.num 2 ≠ JValue.num 1 ∧
    exOk (deserialize (serialize (gameOverMessage (JValue.obj [("p1", JValue.num 7)])))) =
      false := by
  refine ⟨rfl, ?_, rfl⟩
  intro h
  injection h with h2
  exact absurd h2 (by decide)

/-! ## Claim C6 -/

/-- Claim C6, counterexample.  The claim states that decoding fails whenever
a required field is absent or wrongly typed and that no message object is
produced from such input.  An input whose payload lacks every required field
(`player_id`, `player_name`, `public_key`) decodes to a `JoinMessage` built
from defaults, and the non-game kind `SESSION_KEY` — not one of the six —
also decodes successfully. -/
theorem claim_C6_counterexample :
    deserialize (JValue.obj [("type", JValue.str "JOIN")]) =
      Except.ok (joinMessage JValue.null (JValue.str "") (JValue.str "")) ∧
    deserialize (JValue.obj [("type", JValue.str "SESSION_KEY")]) =
      Except.ok (sessionKeyMessage (JValue.str "") (JValue.str "")) :=
  ⟨rfl, rfl⟩

/-- Claim C6, amended: `Protocol.deserialize` does reject every structural
violation — a non-object top level, a missing or non-string `type` field, a
`type` that is not one of the seven `MessageType` names (`SESSION_KEY`
included, so not six), or a present `data` payload that is not a mapping —
and it also fails on every input whose kind is `GAME_OVER`, structurally
valid or not, because of the two-positional-argument `GameOverMessage` call.
The rest of the original claim is false: absent required fields are replaced
by defaults and field types are not validated, so such inputs yield message
objects (see the counterexample). -/
theorem claim_C6 :
    (∀ j, RejectedInput j → exOk (deserialize j) = false) ∧
    (∀ fields, dictGet "type" fields = some (JValue.str "GAME_OVER") →
      exOk (deserialize (JValue.obj fields)) = false) := by
  constructor
  · intro j hj
    rcases hj with hobj | ⟨fields, rfl, hget⟩ | ⟨fields, v, rfl, hget, hstr⟩ |
      ⟨fields, s, rfl, hget, hname⟩ | ⟨fields, v, rfl, ⟨s, hget, hsome⟩, hdata, hvobj⟩
    · cases j with
      | null => rfl
      | str s => rfl
      | num n => rfl
      | arr xs => rfl
      | obj fields => simp [jIsObj] at hobj
    · simp [deserialize, pyIndex, hget, exOk, error_bind, ok_bind, map_error]
    · cases v with
      | str s => simp [jIsStr] at hstr
      | null => simp [deserialize, pyIndex, hget, exOk, error_bind, ok_bind, map_error]
      | num n => simp [deserialize, pyIndex, hget, exOk, error_bind, ok_bind, map_error]
      | arr xs => simp [deserialize, pyIndex, hget, exOk, error_bind, ok_bind, map_error]
      | obj o => simp [deserialize, pyIndex, hget, exOk, error_bind, ok_bind, map_error]
    · simp [deserialize, pyIndex, hget, hname, exOk, error_bind, ok_bind, map_error]
    · obtain ⟨t, ht⟩ := Option.isSome_iff_exists.mp hsome
      have hv : ∀ k d, pyGet v k d = Except.error "AttributeError: object has no attribute get" := by
        intro k d
        cases v with
        | obj o => simp [jIsObj] at hvobj
        | null => rfl
        | str s => rfl
        | num n => rfl
        | arr xs => rfl
      cases t <;>
        simp [deserialize, pyIndex, pyGet_obj, hget, ht, hdata, hv, exOk,
          error_bind, ok_bind, map_error]
  · intro fields hget
    have ht : typeFromName "GAME_OVER" = some MessageType.GAME_OVER := rfl
    cases hdata : dictGet "data" fields with
    | none =>
      simp [deserialize, pyIndex, pyGet_obj, hget, ht, hdata, exOk,
        error_bind, ok_bind, map_error]
    | some v =>
      cases v <;>
        simp [deserialize, pyIndex, pyGet_obj, pyGet, hget, ht, hdata, exOk,
          error_bind, ok_bind, map_error]

/-- Claim C6 witness: the amended theorem applied to a non-object input, an
unknown kind, a `JOIN` whose `data` payload is a string, and a structurally
valid `GAME_OVER` record. -/
theorem claim_C6_witness :
    exOk (deserialize (JValue.num 3)) = false ∧
    exOk (deserialize (JValue.obj [("type", JValue.str "NOPE")])) = false ∧
    exOk (deserialize (JValue.obj
      [("type", JValue.str "JOIN"), ("data", JValue.str "x")])) = false ∧
    exOk (deserialize (JValue.obj [("type", JValue.str "GAME_OVER")])) = false :=
  ⟨claim_C6.1 _ (Or.inl rfl),
   claim_C6.1 _ (Or.inr (Or.inr (Or.inr (Or.inl
     ⟨[("type", JValue.str "NOPE")], "NOPE", rfl, rfl, rfl⟩)))),
   claim_C6.1 _ (Or.inr (Or.inr (Or.inr (Or.inr
     ⟨[("type", JValue.str "JOIN"), ("data", JValue.str "x")], JValue.str "x", rfl,
       ⟨"JOIN", rfl, rfl⟩, rfl, rfl⟩)))),
   claim_C6.2 [("type", JValue.str "GAME_OVER")] rfl⟩

/-! ## Claim C9 -/

/-- Claim C9, counterexample.  The claim states that a second bid submission
by the same participant in the same round is rejected with an error and
leaves the first recorded bid unchanged.  In a two-player game the complete
set of redundant copies is a single copy, so re-processing a decrypted copy
with a different value re-triggers verification and silently replaces the
already verified bid: after A's bid 5 is verified, processing a copy of
value 7 succeeds (no error) and A's recorded bid becomes 7. -/
theorem claim_C9_counterexample :
    (processDecryptedBid c9Roster "A" "B" (PyVal.int 5)).1 = Except.ok () ∧
    dictGet "A" c9Verified.bids = some (PyVal.int 5) ∧
    (processDecryptedBid c9Verified "A" "B" (PyVal.int 7)).1 = Except.ok () ∧
    dictGet "A" (processDecryptedBid c9Verified "A" "B" (PyVal.int 7)).2.bids =
      some (PyVal.int 7) ∧
    PyVal.int 7 ≠ PyVal.int 5 :=
  ⟨rfl, rfl, rfl, rfl, by decide⟩

/-- Claim C9, amended: the one-bid-per-round rule is enforced only by
`GameState.place_bid`: when a player already has a recorded bid, a second
`place_bid` call fails and leaves the state (hence the first bid) unchanged;
`process_decrypted_bid` however can silently replace an already verified bid
(see the counterexample). -/
theorem claim_C9 (s : GameState) (player_id : String) (d0 new_bid : PyVal)
    (hprev : dictGet player_id s.bids = some d0) :
    exOk (placeBid s player_id new_bid).1 = false ∧
    (placeBid s player_id new_bid).2 = s := by
  by_cases h1 : s.round_active = false
  · simp [placeBid, h1, exOk]
  · by_cases h2 : player_id ∈ s.players
    · simp [placeBid, h1, h2, hprev, exOk]
    · simp [placeBid, h1, h2, exOk]

/-- Claim C9 witness: the amended theorem applied to an active round in which
player A already has bid 5 recorded. -/
theorem claim_C9_witness :
    exOk (placeBid c9BidState "A" (PyVal.int 9)).1 = false ∧
    (placeBid c9BidState "A" (PyVal.int 9)).2 = c9BidState :=
  claim_C9 c9BidState "A" (PyVal.int 5) (PyVal.int 9) rfl

/-! ## Claim C10 -/

/-- Claim C10: when the complete set of decrypted redundant copies of an
originator's bid contains two copies with different values, the verification
triggered inside `process_decrypted_bid` fails with `BidVerificationError`
and the verified-bid dictionary is left unchanged — no averaged or chosen
value is recorded. -/
theorem claim_C10 (s : GameState) (from_player for_player : String) (n : Int)
    (hact : s.round_active = true)
    (hfrom : from_player ∈ s.players) (hfor : for_player ∈ s.players)
    (hn : 0 ≤ n)
    (hfull : (dictSet for_player (PyVal.int n)
        ((dictGet from_player s.decrypted_bids).getD [])).length = s.players.length - 1)
    (k1 k2 : String) (v1 v2 : PyVal)
    (h1 : (k1, v1) ∈ dictSet for_player (PyVal.int n)
        ((dictGet from_player s.decrypted_bids).getD []))
    (h2 : (k2, v2) ∈ dictSet for_player (PyVal.int n)
        ((dictGet from_player s.decrypted_bids).getD []))
    (hne : v1 ≠ v2) :
    exOk (processDecryptedBid s from_player for_player (PyVal.int n)).1 = false ∧
    (processDecryptedBid s from_player for_player (PyVal.int n)).2.bids = s.bids := by
  have hnlt : ¬ n < 0 := not_lt.mpr hn
  have hget : dictGet from_player
      (dictSet from_player
        (dictSet for_player (PyVal.int n) ((dictGet from_player s.decrypted_bids).getD []))
        s.decrypted_bids) =
      some (dictSet for_player (PyVal.int n)
        ((dictGet from_player s.decrypted_bids).getD [])) :=
    dictGet_dictSet_self _ _ _
  have hv1 : v1 ∈ (dictSet for_player (PyVal.int n)
      ((dictGet from_player s.decrypted_bids).getD [])).map Prod.snd :=
    List.mem_map.mpr ⟨(k1, v1), h1, rfl⟩
  have hv2 : v2 ∈ (dictSet for_player (PyVal.int n)
      ((dictGet from_player s.decrypted_bids).getD [])).map Prod.snd :=
    List.mem_map.mpr ⟨(k2, v2), h2, rfl⟩
  have hlt : 1 < (pySet ((dictSet for_player (PyVal.int n)
      ((dictGet from_player s.decrypted_bids).getD [])).map Prod.snd)).length :=
    one_lt_length_of_two_mem (mem_pySet hv1) (mem_pySet hv2) hne
  have hnnil : pySet ((dictSet for_player (PyVal.int n)
      ((dictGet from_player s.decrypted_bids).getD [])).map Prod.snd) ≠ [] := by
    intro h
    rw [h] at hlt
    simp at hlt
  have hverr : verifyBidConsistency
      { s with round_active := true, decrypted_bids :=
          (dictSet from_player (dictSet for_player (PyVal.int n)
            ((dictGet from_player s.decrypted_bids).getD [])) s.decrypted_bids) }
      from_player = Except.error "BidVerificationError: inconsistent bids" := by
    simp [verifyBidConsistency, hget, hnnil, hlt]
  simp [processDecryptedBid, hact, hfrom, hfor, hnlt, hfull, hverr, exOk]

/-- Claim C10 witness: player A's stored copy for B has value 7; processing
a copy for C with value 5 completes the redundant set with two differing
values, so verification fails and no bid is recorded for A. -/
theorem claim_C10_witness :
    exOk (processDecryptedBid c10State "A" "C" (PyVal.int 5)).1 = false ∧
    (processDecryptedBid c10State "A" "C" (PyVal.int 5)).2.bids = c10State.bids :=
  claim_C10 c10State "A" "C" 5 rfl (by decide) (by decide) (by decide) (by decide)
    "B" "C" (PyVal.int 7) (PyVal.int 5) (by decide) (by decide) (by decide)

/-! ## Claim C3 -/

/-- Claim C3: when the summed bids exceed the treasure,
`TreasureChest.calculate_payouts` sets `exceeded_limit`, a participant is a
valid player exactly when their bid is at most
`treasure_amount / participant_count` (Python true division), every valid
player is paid `int(treasure_amount / qualifying_count)`, every other
participant is absent from the payout map, and nobody is paid when nobody
qualifies. -/
theorem claim_C3 (total_amount : Int) (bids : List (String × Int))
    (hne : bids ≠ []) (hnd : (bids.map Prod.fst).Nodup)
    (hsum : total_amount < sumVals bids) :
    ∃ r, calculatePayouts total_amount bids = Except.ok r ∧
      r.exceeded_limit = true ∧
      (∀ p b, (p, b) ∈ bids →
        (((b : ℚ) ≤ (total_amount : ℚ) / (bids.length : ℚ)) ↔ p ∈ r.valid_players)) ∧
      (∀ p, p ∈ r.valid_players →
        dictGet p r.payouts =
          some (pyTrunc ((total_amount : ℚ) / (r.valid_players.length : ℚ)))) ∧
      (∀ p b, (p, b) ∈ bids → p ∉ r.valid_players → dictGet p r.payouts = Option.none) ∧
      (r.valid_players = [] → r.payouts = []) := by
  have hnle : ¬ sumVals bids ≤ total_amount := not_le.mpr hsum
  have hlen0 : ¬ bids.length = 0 := fun h => hne (List.length_eq_zero.mp h)
  have hcalc : calculatePayouts total_amount bids =
      Except.ok
        ⟨sumVals bids,
          (if ((bids.filter (fun pb =>
              decide ((pb.2 : ℚ) ≤ (total_amount : ℚ) / (bids.length : ℚ)))).map
              Prod.fst).isEmpty then []
           else ((bids.filter (fun pb =>
              decide ((pb.2 : ℚ) ≤ (total_amount : ℚ) / (bids.length : ℚ)))).map
              Prod.fst).map (fun p => (p, pyTrunc ((total_amount : ℚ) /
                ((((bids.filter (fun pb =>
                  decide ((pb.2 : ℚ) ≤ (total_amount : ℚ) / (bids.length : ℚ)))).map
                  Prod.fst).length : Nat) : ℚ))))),
          (bids.filter (fun pb =>
            decide ((pb.2 : ℚ) ≤ (total_amount : ℚ) / (bids.length : ℚ)))).map Prod.fst,
          true⟩ := by
    simp only [calculatePayouts, if_neg hnle, if_neg hlen0]
  refine ⟨_, hcalc, rfl, ?_, ?_, ?_, ?_⟩
  · intro p b hpb
    constructor
    · intro hle
      exact List.mem_map.mpr ⟨(p, b),
        List.mem_filter.mpr ⟨hpb, decide_eq_true hle⟩, rfl⟩
    · intro hmem
      obtain ⟨⟨p', b'⟩, hmem', hfst⟩ := List.mem_map.mp hmem
      obtain ⟨hin, hdec⟩ := List.mem_filter.mp hmem'
      have hpp : p' = p := hfst
      have hbb : b' = b := value_unique_of_nodup_keys hnd (hpp ▸ hin) hpb
      have := of_decide_eq_true hdec
      rwa [hbb] at this
  · intro p hp
    dsimp only at hp ⊢
    have hnil : ¬ (((bids.filter (fun pb =>
        decide ((pb.2 : ℚ) ≤ (total_amount : ℚ) / (bids.length : ℚ)))).map
        Prod.fst).isEmpty = true) := by
      intro h
      rw [List.isEmpty_iff] at h
      rw [h] at hp
      cases hp
    rw [if_neg hnil]
    exact dictGet_map_const_of_mem _ hp
  · intro p b hpb hnp
    dsimp only at hnp ⊢
    by_cases hemp : ((bids.filter (fun pb =>
        decide ((pb.2 : ℚ) ≤ (total_amount : ℚ) / (bids.length : ℚ)))).map
        Prod.fst).isEmpty = true
    · rw [if_pos hemp]
      rfl
    · rw [if_neg hemp]
      exact dictGet_map_const_of_not_mem _ hnp
  · intro hv
    dsimp only at hv ⊢
    rw [if_pos (by rw [hv]; rfl)]

/-- Claim C3 witness: spec Scenario B, bids 60/50/20 against treasure 100:
the sum 130 exceeds the treasure, only the 20-bidder qualifies
(`20 ≤ 100/3`), receives `int(100/1) = 100`, and the others are unpaid. -/
theorem claim_C3_witness :
    ∃ r, calculatePayouts 100 [("p1", 60), ("p2", 50), ("p3", 20)] = Except.ok r ∧
      r.exceeded_limit = true ∧
      (∀ p b, (p, b) ∈ [(("p1" : String), (60 : Int)), ("p2", 50), ("p3", 20)] →
        (((b : ℚ) ≤ (100 : ℚ) / (3 : ℚ)) ↔ p ∈ r.valid_players)) ∧
      (∀ p, p ∈ r.valid_players →
        dictGet p r.payouts = some (pyTrunc ((100 : ℚ) / (r.valid_players.length : ℚ)))) ∧
      (∀ p b, (p, b) ∈ [(("p1" : String), (60 : Int)), ("p2", 50), ("p3", 20)] →
        p ∉ r.valid_players → dictGet p r.payouts = Option.none) ∧
      (r.valid_players = [] → r.payouts = []) := by
  have h := claim_C3 100 [("p1", 60), ("p2", 50), ("p3", 20)]
    (by decide) (by decide) (by decide)
  simpa using h

/-! ## Claim C4 -/

theorem pkcs7Pad_length (data : List Nat) :
    (pkcs7Pad data).length = data.length + (16 - data.length % 16) := by
  simp [pkcs7Pad]

theorem pkcs7Pad_mod (data : List Nat) : (pkcs7Pad data).length % 16 = 0 := by
  rw [pkcs7Pad_length]
  omega

theorem pkcs7Pad_pos (data : List Nat) : 0 < (pkcs7Pad data).length := by
  rw [pkcs7Pad_length]
  omega

theorem chunksAux_mem_length :
    ∀ (fuel : Nat) (l : List Nat), l.length ≤ fuel → l.length % 16 = 0 →
      ∀ c ∈ chunksAux fuel l, c.length = 16 := by
  intro fuel
  induction fuel with
  | zero =>
    intro l _ _ c hc
    simp [chunksAux] at hc
  | succ n ih =>
    intro l hle hmod c hc
    match l with
    | [] => simp [chunksAux] at hc
    | x :: xs =>
      simp only [chunksAux] at hc
      have hpos : (x :: xs).length ≠ 0 := by simp
      have h16 : 16 ≤ (x :: xs).length := by omega
      cases List.mem_cons.mp hc with
      | inl h =>
        rw [h]
        simp only [List.length_take]
        omega
      | inr h =>
        have hd : ((x :: xs).drop 16).length = (x :: xs).length - 16 := by simp
        exact ih ((x :: xs).drop 16) (by omega) (by omega) c h

theorem chunksAux_count :
    ∀ (fuel : Nat) (l : List Nat), l.length ≤ fuel → l.length % 16 = 0 →
      16 * (chunksAux fuel l).length = l.length := by
  intro fuel
  induction fuel with
  | zero =>
    intro l hle _
    have : l = [] := List.length_eq_zero.mp (by omega)
    subst this
    rfl
  | succ n ih =>
    intro l hle hmod
    match l with
    | [] => rfl
    | x :: xs =>
      simp only [chunksAux, List.length_cons]
      have hpos : (x :: xs).length ≠ 0 := by simp
      have h16 : 16 ≤ (x :: xs).length := by omega
      have hd : ((x :: xs).drop 16).length = (x :: xs).length - 16 := by simp
      have := ih ((x :: xs).drop 16) (by omega) (by omega)
      simp only [List.length_cons] at h16 hd ⊢
      omega

theorem chunks16_all_sixteen (l : List Nat) (h : l.length % 16 = 0) :
    ∀ c ∈ chunks16 l, c.length = 16 :=
  chunksAux_mem_length l.length l le_rfl h

theorem chunks16_count (l : List Nat) (h : l.length % 16 = 0) :
    16 * (chunks16 l).length = l.length :=
  chunksAux_count l.length l le_rfl h

theorem chunks16_ne_nil (l : List Nat) (h : l ≠ []) : chunks16 l ≠ [] := by
  match l with
  | [] => exact absurd rfl h
  | x :: xs =>
    show chunksAux (x :: xs).length (x :: xs) ≠ []
    simp [chunksAux]

theorem cbcDecryptBlocks_length (blockDec : List Nat → List Nat)
    (hD : ∀ b, (blockDec b).length = 16) :
    ∀ (blocks : List (List Nat)) (prev : List Nat), prev.length = 16 →
      (∀ c ∈ blocks, c.length = 16) →
      (cbcDecryptBlocks blockDec prev blocks).length = 16 * blocks.length := by
  intro blocks
  induction blocks with
  | nil => intro prev _ _; rfl
  | cons b rest ih =>
    intro prev hprev hall
    have hb : b.length = 16 := hall b (List.mem_cons_self b rest)
    simp only [cbcDecryptBlocks, List.length_append, List.length_zipWith, hD, hprev,
      List.length_cons]
    rw [ih b hb (fun c hc => hall c (List.mem_cons_of_mem b hc))]
    omega

theorem cbcEncryptBlocks_length (blockEnc : List Nat → List Nat)
    (hE : ∀ b, (blockEnc b).length = b.length) :
    ∀ (blocks : List (List Nat)) (prev : List Nat), prev.length = 16 →
      (∀ c ∈ blocks, c.length = 16) →
      (cbcEncryptBlocks blockEnc prev blocks).length = 16 * blocks.length := by
  intro blocks
  induction blocks with
  | nil => intro prev _ _; rfl
  | cons b rest ih =>
    intro prev hprev hall
    have hb : b.length = 16 := hall b (List.mem_cons_self b rest)
    have hc : (blockEnc (List.zipWith Nat.xor b prev)).length = 16 := by
      rw [hE, List.length_zipWith, hb, hprev]
      exact Nat.min_self 16
    simp only [cbcEncryptBlocks, List.length_append, List.length_cons]
    rw [hc, ih (blockEnc (List.zipWith Nat.xor b prev)) hc
      (fun c hcm => hall c (List.mem_cons_of_mem b hcm))]
    omega

theorem encryptWithSessionKey_length (blockEnc : List Nat → List Nat)
    (hE : ∀ b, (blockEnc b).length = b.length) (iv data : List Nat)
    (hiv : iv.length = 16) :
    (encryptWithSessionKey blockEnc iv data).length = 16 + (pkcs7Pad data).length := by
  show (iv ++ cbcEncryptBlocks blockEnc iv (chunks16 (pkcs7Pad data))).length = _
  rw [List.length_append, hiv,
    cbcEncryptBlocks_length blockEnc hE _ iv hiv
      (chunks16_all_sixteen _ (pkcs7Pad_mod data)),
    chunks16_count _ (pkcs7Pad_mod data)]

theorem decrypt_ok_of_length (blockDec : List Nat → List Nat)
    (hD : ∀ b, (blockDec b).length = 16) (enc : List Nat)
    (hmod : enc.length % 16 = 0) (hge : 32 ≤ enc.length) :
    ∃ pt, decryptWithSessionKey blockDec enc = Except.ok pt := by
  have hiv : (enc.take 16).length = 16 := by
    simp only [List.length_take]
    omega
  have hct : (enc.drop 16).length = enc.length - 16 := by simp
  have hctmod : (enc.drop 16).length % 16 = 0 := by omega
  have hctne : enc.drop 16 ≠ [] := by
    intro h
    have := congrArg List.length h
    rw [hct] at this
    simp at this
    omega
  have hchne : chunks16 (enc.drop 16) ≠ [] := chunks16_ne_nil _ hctne
  have hplen : (cbcDecryptBlocks blockDec (enc.take 16) (chunks16 (enc.drop 16))).length =
      16 * (chunks16 (enc.drop 16)).length :=
    cbcDecryptBlocks_length blockDec hD _ _ hiv (chunks16_all_sixteen _ hctmod)
  have hpne : cbcDecryptBlocks blockDec (enc.take 16) (chunks16 (enc.drop 16)) ≠ [] := by
    intro h
    have hl := congrArg List.length h
    rw [hplen] at hl
    simp only [List.length_nil] at hl
    have : (chunks16 (enc.drop 16)).length = 0 := by omega
    exact hchne (List.length_eq_zero.mp this)
  obtain ⟨y, hy⟩ := Option.isSome_iff_exists.mp (List.getLast?_isSome.mpr hpne)
  refine ⟨pyDropLastSlice (cbcDecryptBlocks blockDec (enc.take 16) (chunks16 (enc.drop 16))) y, ?_⟩
  show (if (enc.take 16).length ≠ 16 then _ else _) = _
  rw [if_neg (not_not_intro hiv), if_neg (not_not_intro hctmod)]
  dsimp only
  rw [hy]

/-- Claim C4, code bug.  The claim (and the spec) require
`decrypt_with_session_key` to fail on any tampered ciphertext rather than
silently return corrupted data.  The implementation checks neither the PKCS7
padding bytes nor any authentication tag, so for EVERY 16-byte block
permutation (hence for AES-256 under any session key, or under the wrong
key) and every byte string of the same length as a produced ciphertext —
in particular any single-byte corruption of one — decryption succeeds and
returns bytes. -/
theorem claim_C4_bug (blockEnc blockDec : List Nat → List Nat)
    (hE : ∀ b, (blockEnc b).length = b.length)
    (hD : ∀ b, (blockDec b).length = 16)
    (iv data tampered : List Nat) (hiv : iv.length = 16)
    (hlen : tampered.length = (encryptWithSessionKey blockEnc iv data).length) :
    ∃ pt, decryptWithSessionKey blockDec tampered = Except.ok pt := by
  have henc := encryptWithSessionKey_length blockEnc hE iv data hiv
  have hmod := pkcs7Pad_mod data
  have hpos := pkcs7Pad_pos data
  apply decrypt_ok_of_length blockDec hD
  · omega
  · omega

/-- Claim C4 witness: the theorem applied to the identity block cipher, a
zero IV, plaintext `[1, 2, 3]` (ciphertext length 32) and the tampered
32-byte string of 7s: decryption still succeeds. -/
theorem claim_C4_bug_witness :
    ∃ pt, decryptWithSessionKey (fun _ => List.replicate 16 0)
      (List.replicate 32 7) = Except.ok pt :=
  claim_C4_bug (fun b => b) (fun _ => List.replicate 16 0) (fun _ => rfl)
    (fun _ => by simp) (List.replicate 16 0) [1, 2, 3] (List.replicate 32 7)
    (by simp) (by decide)

end GreedyPirates
